import Mathlib

/-!
Shallow embedding of the containuum container-monitoring library.

Modelling conventions:
* Go strings are byte sequences: modelled as `Str := List Nat` (each entry a byte).
* Go slices and maps distinguish nil from empty; both are observed by the code
  only through `len` and `range`, so a slice/map is modelled as
  `Option (List _)` (`none` = nil) and `goList` gives the observable contents.
* Machine words: FNV-1a hashing works on `uint64`, modelled as `Nat` with
  explicit reduction `% 2 ^ 64` at each multiplication.
* Durations are `Nat` (nanoseconds, as Go's `time.Duration` ticks).
-/

namespace Containuum

/-- A Go string: a sequence of bytes. -/
abbrev Str := List Nat

/-- Contents of a Go slice or map, `none` modelling a nil slice/map:
`len` and `range` observe nil exactly like the empty slice. -/
def goList {α : Type} : Option (List α) → List α
  | none => []
  | some l => l

/-- Port represents a port mapping (HostIP, HostPort, ContainerPort, Protocol). -/
structure Port where
  HostIP : Str
  HostPort : Nat
  ContainerPort : Nat
  Protocol : Str
deriving DecidableEq

/-- Network represents a container's connection to a Docker network. -/
structure Network where
  Name : Str
  ID : Str
  IPAddress : Str
  IP6Address : Str
  Gateway : Str
  Aliases : Option (List Str)
deriving DecidableEq

/-- Container represents a Docker container's relevant state. -/
structure Container where
  ID : Str
  Name : Str
  Image : Str
  State : Str
  Labels : Option (List (Str × Str))
  Networks : Option (List Network)
  Ports : Option (List Port)
deriving DecidableEq

/-- The FNV-1a 64-bit prime. -/
def fnvPrime : Nat := 1099511628211

/-- The FNV-1a 64-bit offset basis, the state of `fnv.New64a()`. -/
def fnvOffset : Nat := 14695981039346656037

/-- One byte of FNV-1a: xor the byte in, multiply by the prime mod 2^64. -/
def fnvByte (h b : Nat) : Nat := ((h ^^^ b % 256) * fnvPrime) % 2 ^ 64

/-- `h.Write(bytes)` for an FNV-1a state. -/
def fnvWrite (h : Nat) (s : Str) : Nat := s.foldl fnvByte h

/-- `binary.Write(h, binary.LittleEndian, x)` payload: the `w`-byte
little-endian encoding of `x` (`w = 2` for uint16, `w = 8` for uint64). -/
def leBytes (w x : Nat) : Str := (List.range w).map fun i => x / 256 ^ i % 256

/-- `sort.Strings`: lexicographic (bytewise) sort, modelled with insertion
sort under the lexicographic order on byte lists. -/
def sortStrs (l : List Str) : List Str := List.insertionSort (· ≤ ·) l

/-- Port.hash: FNV-1a over HostIP, little-endian HostPort and ContainerPort,
and Protocol. -/
def Port.hash (p : Port) : Nat :=
  fnvWrite (fnvWrite (fnvWrite (fnvWrite fnvOffset p.HostIP)
    (leBytes 2 p.HostPort)) (leBytes 2 p.ContainerPort)) p.Protocol

/-- Network.hash: FNV-1a over the scalar fields, then the sorted aliases
(written only when the alias slice is non-empty). -/
def Network.hash (n : Network) : Nat :=
  let h := fnvWrite (fnvWrite (fnvWrite (fnvWrite (fnvWrite fnvOffset
    n.Name) n.ID) n.IPAddress) n.IP6Address) n.Gateway
  if 0 < (goList n.Aliases).length then
    (sortStrs (goList n.Aliases)).foldl fnvWrite h
  else h

/-- `c.Labels[k]`: Go map indexing, returning the zero value (empty string)
when the key is absent or the map is nil. -/
def lookupStr (m : List (Str × Str)) (k : Str) : Str :=
  match m.find? fun p => decide (p.1 = k) with
  | some p => p.2
  | none => []

/-- Container.hash: FNV-1a over the scalar fields, the label pairs in sorted
key order (when the map is non-empty), then the little-endian XOR-folds of the
network and port hashes. -/
def Container.hash (c : Container) : Nat :=
  let h := fnvWrite (fnvWrite (fnvWrite (fnvWrite fnvOffset
    c.ID) c.Name) c.Image) c.State
  let labels := goList c.Labels
  let h := if 0 < labels.length then
      (sortStrs (labels.map Prod.fst)).foldl
        (fun h k => fnvWrite (fnvWrite h k) (lookupStr labels k)) h
    else h
  let networksHash := (goList c.Networks).foldl (fun a n => a ^^^ n.hash) 0
  let h := fnvWrite h (leBytes 8 networksHash)
  let portsHash := (goList c.Ports).foldl (fun a p => a ^^^ p.hash) 0
  fnvWrite h (leBytes 8 portsHash)

/-- computeHash generates a hash of the container list: the XOR-fold of the
member hashes, starting from the zero value. -/
def computeHash (containers : List Container) : Nat :=
  containers.foldl (fun h c => h ^^^ c.hash) 0

/-- Filter is a predicate deciding whether a container is included. -/
def Filter := Container → Bool

/-- All matches if all given filters match (AND); true when empty. -/
def All (fs : List Filter) : Filter := fun c => fs.all fun f => f c

/-- Any matches if any given filter matches (OR); false when empty. -/
def Any (fs : List Filter) : Filter := fun c => fs.any fun f => f c

/-- Not inverts the given filter. -/
def Not (f : Filter) : Filter := fun c => !f c

/-- LabelExists: the comma-ok map lookup `_, exists := c.Labels[key]`. -/
def LabelExists (key : Str) : Filter := fun c =>
  ((goList c.Labels).find? fun p => decide (p.1 = key)).isSome

/-- LabelEquals: Go's `c.Labels[key] == value`, where indexing a map without
the key (or a nil map) yields the zero value (empty string). -/
def LabelEquals (key value : Str) : Filter := fun c =>
  decide (lookupStr (goList c.Labels) key = value)

/-- StateEquals: exact string match on the container state. -/
def StateEquals (state : Str) : Filter := fun c => decide (c.State = state)

/-- Errors: opaque base errors are tagged by a code; `wrap` models
`fmt.Errorf("...: %w", err)`; `canceled` models a context error. -/
inductive GoError where
  | base (code : Nat)
  | wrap (tag : Nat) (inner : GoError)
  | canceled
deriving DecidableEq

/-- Tag for the gather wrapper message (failed to refresh containers). -/
def refreshFailTag : Nat := 0

/-- Tag for the event-loop wrapper message (failed to stream events). -/
def streamFailTag : Nat := 1

/-- Observable actions of `gather`: updating the stored hash and invoking
the callback, in program order. -/
inductive Ev where
  | setCursor (h : Nat)
  | invoke (cs : List Container)
deriving DecidableEq

/-- Number of callback invocations recorded in a trace. -/
def invokes (tr : List Ev) : Nat :=
  (tr.filter fun e => match e with | .invoke _ => true | _ => false).length

/-- The dedup test `m.previousHash != nil && currentHash == *m.previousHash`. -/
def cursorMatches : Option Nat → Nat → Bool
  | none, _ => false
  | some p, h => decide (h = p)

/-- gather: given the stored cursor (`m.previousHash`) and the outcome of the
pull (`gatherContainers`), either propagate the wrapped pull error, or return
the trace of actions taken together with the new cursor. On a changed hash the
cursor is written first, then the callback is invoked. -/
def gather (prev : Option Nat) (pull : Except GoError (List Container)) :
    Except GoError (List Ev × Option Nat) :=
  match pull with
  | .error e => .error (.wrap refreshFailTag e)
  | .ok containers =>
    let currentHash := computeHash containers
    if cursorMatches prev currentHash then .ok ([], prev)
    else .ok ([.setCursor currentHash, .invoke containers], some currentHash)

/-- The loop body of gatherContainers: inspect each listed identity; an
inspection error skips that identity (`continue`); the filter (nil accepts
everything) decides inclusion. -/
def gatherLoop (filter : Option Filter) (inspect : Str → Except GoError Container) :
    List Str → List Container
  | [] => []
  | cid :: rest =>
    match inspect cid with
    | .error _ => gatherLoop filter inspect rest
    | .ok c =>
      if (match filter with | none => true | some f => f c) then
        c :: gatherLoop filter inspect rest
      else gatherLoop filter inspect rest

/-- gatherContainers: a failed listing call fails the pull with that error;
otherwise the listed identities are inspected and filtered. The listing and
per-identity inspection results stand in for the Docker client calls. -/
def gatherContainers (filter : Option Filter)
    (listResult : Except GoError (List Str))
    (inspect : Str → Except GoError Container) : Except GoError (List Container) :=
  match listResult with
  | .error e => .error e
  | .ok summaries => .ok (gatherLoop filter inspect summaries)

/-- One monitoring session (one `runOnce` call), abstracted to the data the
retry logic observes: the results of the successive pulls its refresh
triggers perform (the head is the initial refresh at session start), the
error delivered on the event stream's error channel when the session ends
(`none` models the channel closing cleanly, which returns a nil error), the
session's wall-clock length, and whether the governing context was cancelled
by the time the session returned. -/
structure SessionScript where
  pulls : List (Except GoError (List Container))
  streamErr : Option GoError
  duration : Nat
  ctxErrAfter : Bool

/-- Run the gathers of one session in order, threading the cursor; the first
gather error aborts the session with that error. -/
def runSession (prev : Option Nat) :
    List (Except GoError (List Container)) → List Ev × Option Nat × Option GoError
  | [] => ([], prev, none)
  | pull :: rest =>
    match gather prev pull with
    | .error e => ([], prev, some e)
    | .ok (tr, cur) =>
      let r := runSession cur rest
      (tr ++ r.1, r.2.1, r.2.2)

/-- One `runOnce` call: the session's gathers, then — when no gather failed —
the stream error wrapped as a failure to stream events (or a nil return when
the error channel closed cleanly). Returns (trace, final cursor, returned
error), where `none` is Go's nil error. -/
def runOnceModel (prev : Option Nat) (s : SessionScript) :
    List Ev × Option Nat × Option GoError :=
  let r := runSession prev s.pulls
  match r.2.2 with
  | some e => (r.1, r.2.1, some e)
  | none => (r.1, r.2.1, s.streamErr.map (GoError.wrap streamFailTag))

/-- reconnectConfig holds parameters for automatic reconnection. -/
structure ReconnectConfig where
  MinDelay : Nat
  MaxDelay : Nat
  MaxRetries : Nat
deriving DecidableEq

/-- time.Minute in nanoseconds (the stability window of runWithRetry). -/
def minuteNs : Nat := 60000000000

/-- What a (possibly truncated) run of the retry loop did: the per-session
event traces in order, the backoff delays slept in order, the value `run`
returned (`some r`, with `r = none` for a nil error) or `none` when the
supplied scripts ran out before the loop ended, and the final cursor. -/
structure RetryResult where
  traces : List (List Ev)
  delays : List Nat
  outcome : Option (Option GoError)
  cursor : Option Nat
deriving DecidableEq

/-- runWithRetry: run sessions with exponential backoff. After each session:
return the context error if cancelled; reset attempt and delay when the
session survived at least a minute; count the attempt and stop with the last
session's error once MaxRetries (when positive) is exceeded; otherwise sleep
the current delay, double it capped at MaxDelay, and go again. The monitor's
`previousHash` field persists across the loop, so the cursor threads through.
(Cancellation during the backoff sleep is not modelled; scripts signal
cancellation via `ctxErrAfter`.) -/
def runWithRetry (cfg : ReconnectConfig) :
    Nat → Nat → Option Nat → List SessionScript → RetryResult
  | _, _, prev, [] => ⟨[], [], none, prev⟩
  | attempt, delay, prev, s :: rest =>
    let g := runOnceModel prev s
    if s.ctxErrAfter then ⟨[g.1], [], some (some .canceled), g.2.1⟩
    else
      let ad : Nat × Nat :=
        if minuteNs ≤ s.duration then (0, cfg.MinDelay) else (attempt, delay)
      let attempt2 := ad.1 + 1
      if 0 < cfg.MaxRetries ∧ cfg.MaxRetries < attempt2 then
        ⟨[g.1], [], some g.2.2, g.2.1⟩
      else
        let d2 := ad.2 * 2
        let d3 := if cfg.MaxDelay < d2 then cfg.MaxDelay else d2
        let r := runWithRetry cfg attempt2 d3 g.2.1 rest
        ⟨g.1 :: r.traces, ad.2 :: r.delays, r.outcome, r.cursor⟩

/-- run: with reconnection enabled wrap the sessions in the retry loop
(attempt 0, delay MinDelay, cursor unset); otherwise a single session whose
error is surfaced directly. -/
def run (reconnect : Option ReconnectConfig) (scripts : List SessionScript) :
    RetryResult :=
  match reconnect with
  | some cfg => runWithRetry cfg 0 cfg.MinDelay none scripts
  | none =>
    match scripts with
    | [] => ⟨[], [], none, none⟩
    | s :: _ =>
      let g := runOnceModel none s
      ⟨[g.1], [], some g.2.2, g.2.1⟩

/-- Timing configuration of the event loop (debounce, maxDebounceTime,
maxIdleTime), in abstract clock units. -/
structure GateConfig where
  debounce : Nat
  maxDebounceTime : Nat
  maxIdleTime : Nat
deriving DecidableEq

/-- The timer state of runOnce's loop: `waiting`, the absolute deadlines of
the debounce and max-debounce timers (`none` = stopped), and the idle
ticker's next deadline (always armed). -/
structure GateState where
  waiting : Bool
  debounceC : Option Nat
  maxDebounceC : Option Nat
  idleC : Nat
deriving DecidableEq

/-- The four select arms of the loop that drive the timers. -/
inductive GEvent where
  | arrival
  | debounceFire
  | maxDebounceFire
  | idleFire
deriving DecidableEq

/-- One select-arm step of runOnce's loop at absolute time `now`. The Bool
reports whether this arm ran `gather` (a refresh). -/
def gateStep (cfg : GateConfig) (now : Nat) (s : GateState) :
    GEvent → GateState × Bool
  | .arrival =>
    if s.waiting then
      ({ s with idleC := now + cfg.maxIdleTime,
                debounceC := some (now + cfg.debounce) }, false)
    else
      ({ waiting := true,
         debounceC := some (now + cfg.debounce),
         maxDebounceC := some (now + cfg.maxDebounceTime),
         idleC := now + cfg.maxIdleTime }, false)
  | .debounceFire =>
    ({ waiting := false, debounceC := none, maxDebounceC := none,
       idleC := now + cfg.maxIdleTime }, true)
  | .maxDebounceFire =>
    ({ waiting := false, debounceC := none, maxDebounceC := none,
       idleC := now + cfg.maxIdleTime }, true)
  | .idleFire =>
    if s.waiting then
      ({ waiting := false, debounceC := none, maxDebounceC := none,
         idleC := now + cfg.maxIdleTime }, true)
    else
      ({ s with idleC := now + cfg.maxIdleTime }, true)

/-- Earliest candidate event, preferring the earlier-listed at ties. -/
def pickMin : List (Nat × GEvent) → Option (Nat × GEvent)
  | [] => none
  | c :: rest =>
    some (match pickMin rest with
      | none => c
      | some d => if c.1 ≤ d.1 then c else d)

/-- The next event the loop processes: the pending timer deadlines and the
next external arrival, earliest first. Go's select picks among
simultaneously ready channels nondeterministically; the model fixes one
admissible schedule by letting timer arms win ties over arrivals. -/
def nextEvent (s : GateState) (arrivals : List Nat) : Option (Nat × GEvent) :=
  pickMin
    ((match s.debounceC with | some t => [(t, GEvent.debounceFire)] | none => []) ++
     (match s.maxDebounceC with | some t => [(t, GEvent.maxDebounceFire)] | none => []) ++
     [(s.idleC, GEvent.idleFire)] ++
     (match arrivals with | a :: _ => [(a, GEvent.arrival)] | [] => []))

/-- Discrete-event run of the loop until the first refresh: returns the time
at which gather first runs and the state just after, `none` if the fuel runs
out. Arrival times must be given in ascending order. -/
def simRun (cfg : GateConfig) : Nat → GateState → List Nat → Option (Nat × GateState)
  | 0, _, _ => none
  | fuel + 1, s, arrivals =>
    match nextEvent s arrivals with
    | none => none
    | some te =>
      let arrivals2 := if te.2 = GEvent.arrival then arrivals.tail else arrivals
      let sf := gateStep cfg te.1 s te.2
      if sf.2 then some (te.1, sf.1) else simRun cfg fuel sf.1 arrivals2

/-- The loop's state right after the initial gather at session start, at
time `t0`: both debounce timers created stopped, the idle ticker running. -/
def gateInit (cfg : GateConfig) (t0 : Nat) : GateState :=
  { waiting := false, debounceC := none, maxDebounceC := none,
    idleC := t0 + cfg.maxIdleTime }

/-- The default timing configuration, in milliseconds: debounce 100ms,
maxDebounceTime 5s, maxIdleTime 30s. -/
def defaultGateConfig : GateConfig := ⟨100, 5000, 30000⟩

/-- Continuous arrivals spaced debounce/10 = 10ms apart, lasting past the
max-debounce deadline of 5000ms. -/
def stormArrivals : List Nat := (List.range 520).map (· * 10)

/-- Equality of network attachments up to reordering of the alias set. -/
def NetworkEquiv (n m : Network) : Prop :=
  n.Name = m.Name ∧ n.ID = m.ID ∧ n.IPAddress = m.IPAddress ∧
  n.IP6Address = m.IP6Address ∧ n.Gateway = m.Gateway ∧
  (goList n.Aliases).Perm (goList m.Aliases)

/-- `l₂` is a permutation of `l₁` in which each element may additionally be
replaced by an `R`-equivalent one. -/
def PermUpTo {α : Type} (R : α → α → Prop) (l₁ l₂ : List α) : Prop :=
  ∃ l, l₁.Perm l ∧ List.Forall₂ R l l₂

/-- Structural equality of containers up to reordering of the label map
entries, the network and port collections, and each network's alias set
(nil and empty collections both observed as the empty list). -/
def ContainerEquiv (c d : Container) : Prop :=
  c.ID = d.ID ∧ c.Name = d.Name ∧ c.Image = d.Image ∧ c.State = d.State ∧
  (goList c.Labels).Perm (goList d.Labels) ∧
  PermUpTo NetworkEquiv (goList c.Networks) (goList d.Networks) ∧
  (goList c.Ports).Perm (goList d.Ports)

/-- Two snapshots that are structurally identical up to every irrelevant
reordering. -/
def SnapshotEquiv (cs ds : List Container) : Prop :=
  PermUpTo ContainerEquiv cs ds

/-- A container's label map has the unique keys every Go map has. -/
abbrev NodupKeys (c : Container) : Prop :=
  ((goList c.Labels).map Prod.fst).Nodup

/-- The delay sequence produced by repeated double-and-cap from `d`. -/
def delaySeq (mx : Nat) : Nat → Nat → List Nat
  | _, 0 => []
  | d, n + 1 => d :: delaySeq mx (if mx < d * 2 then mx else d * 2) n

/-! ### Concrete instances used in counterexamples and witnesses -/

/-- A session that fails its initial pull immediately (rapid failure). -/
def sE : SessionScript := ⟨[Except.error (GoError.base 9)], none, 0, false⟩

/-- A container with arbitrary scalar bytes and nil collections. -/
def cSolo : Container := ⟨[1], [2], [3], [4], none, none, none⟩

/-- A session whose initial pull succeeds with `[cSolo]` and which then ends
with an event-stream error. -/
def sOkThenDrop : SessionScript :=
  ⟨[Except.ok [cSolo]], some (GoError.base 5), 0, false⟩

/-- A network attachment with two aliases. -/
def nwW : Network := ⟨[5], [6], [7], [8], [9], some [[30], [31]]⟩

/-- The same attachment with the aliases listed in the other order. -/
def nwW2 : Network := ⟨[5], [6], [7], [8], [9], some [[31], [30]]⟩

/-- A port mapping. -/
def ptW : Port := ⟨[12], 80, 8080, [13]⟩

/-- A container with two labels, one network and one port. -/
def cAW : Container :=
  ⟨[1], [2], [3], [4], some [([10], [20]), ([11], [21])], some [nwW], some [ptW]⟩

/-- `cAW` with the label entries and the network's aliases permuted. -/
def cAW2 : Container :=
  ⟨[1], [2], [3], [4], some [([11], [21]), ([10], [20])], some [nwW2], some [ptW]⟩

/-- A second container, with nil collections. -/
def cBW : Container := ⟨[2], [2], [3], [4], none, none, none⟩

/-- A container carrying exactly one label. -/
def cOneLabel : Container := ⟨[], [], [], [], some [([1], [2])], none, none⟩

/-! ### Helper lemmas -/

theorem xorFold_eq_map {α : Type} (f : α → Nat) (l : List α) (b : Nat) :
    l.foldl (fun a x => a ^^^ f x) b = (l.map f).foldl (· ^^^ ·) b := by
  induction l generalizing b with
  | nil => rfl
  | cons x xs ih => simp only [List.foldl, List.map]; exact ih _

theorem xorFoldNat_perm {l₁ l₂ : List Nat} (h : l₁.Perm l₂) (b : Nat) :
    l₁.foldl (· ^^^ ·) b = l₂.foldl (· ^^^ ·) b := by
  induction h generalizing b with
  | nil => rfl
  | cons x _ ih => simp only [List.foldl]; exact ih _
  | swap x y l =>
    simp only [List.foldl]
    rw [Nat.xor_assoc, Nat.xor_assoc, Nat.xor_comm y x]
  | trans _ _ ih₁ ih₂ => exact (ih₁ b).trans (ih₂ b)

theorem map_eq_of_forall2 {α β : Type} {f : α → Nat} {g : β → Nat}
    {l₁ : List α} {l₂ : List β} (h : List.Forall₂ (fun a b => f a = g b) l₁ l₂) :
    l₁.map f = l₂.map g := by
  induction h with
  | nil => rfl
  | cons hfg _ ih => simp only [List.map, ih, hfg]

theorem xorFold_permUpTo {α : Type} (R : α → α → Prop) (f : α → Nat)
    (hR : ∀ a b, R a b → f a = f b) {l₁ l₂ : List α}
    (h : PermUpTo R l₁ l₂) (b : Nat) :
    l₁.foldl (fun a x => a ^^^ f x) b = l₂.foldl (fun a x => a ^^^ f x) b := by
  obtain ⟨l, hp, hf⟩ := h
  rw [xorFold_eq_map f l₁, xorFold_eq_map f l₂, xorFoldNat_perm (hp.map f) b,
    map_eq_of_forall2 (hf.imp fun a b hab => hR a b hab)]

theorem sortStrs_perm_congr {l₁ l₂ : List Str} (h : l₁.Perm l₂) :
    sortStrs l₁ = sortStrs l₂ :=
  List.eq_of_perm_of_sorted
    (((List.perm_insertionSort _ l₁).trans h).trans
      (List.perm_insertionSort _ l₂).symm)
    (List.sorted_insertionSort _ l₁) (List.sorted_insertionSort _ l₂)

theorem lookupStr_perm_congr {l₁ l₂ : List (Str × Str)} (h : l₁.Perm l₂)
    (nd : (l₁.map Prod.fst).Nodup) (k : Str) :
    lookupStr l₁ k = lookupStr l₂ k := by
  unfold lookupStr
  cases hf : l₁.find? fun p => decide (p.1 = k) with
  | none =>
    have h2 : l₂.find? (fun p => decide (p.1 = k)) = none := by
      rw [List.find?_eq_none] at hf ⊢
      intro x hx
      exact hf x (h.mem_iff.mpr hx)
    rw [h2]
  | some p =>
    have hp1 : p.1 = k := by simpa using List.find?_some hf
    have hpmem : p ∈ l₁ := List.mem_of_find?_eq_some hf
    cases hg : l₂.find? fun p => decide (p.1 = k) with
    | none =>
      rw [List.find?_eq_none] at hg
      exact absurd (by simpa using hp1) (hg p (h.mem_iff.mp hpmem))
    | some q =>
      have hq1 : q.1 = k := by simpa using List.find?_some hg
      have hqmem : q ∈ l₁ := h.mem_iff.mpr (List.mem_of_find?_eq_some hg)
      have hpq : p = q :=
        List.inj_on_of_nodup_map nd hpmem hqmem (hp1.trans hq1.symm)
      rw [hpq]

theorem networkHash_equiv {n m : Network} (h : NetworkEquiv n m) :
    n.hash = m.hash := by
  obtain ⟨h1, h2, h3, h4, h5, hp⟩ := h
  unfold Network.hash
  rw [h1, h2, h3, h4, h5, hp.length_eq, sortStrs_perm_congr hp]

theorem containerHash_equiv {c d : Container} (h : ContainerEquiv c d)
    (nd : NodupKeys c) : c.hash = d.hash := by
  obtain ⟨h1, h2, h3, h4, hl, hn, hp⟩ := h
  have hfun : (fun h k => fnvWrite (fnvWrite h k) (lookupStr (goList c.Labels) k)) =
      fun h k => fnvWrite (fnvWrite h k) (lookupStr (goList d.Labels) k) := by
    funext h k
    rw [lookupStr_perm_congr hl nd k]
  simp only [Container.hash]
  rw [h1, h2, h3, h4, hl.length_eq,
    sortStrs_perm_congr (hl.map Prod.fst), hfun,
    xorFold_permUpTo NetworkEquiv Network.hash
      (fun _ _ hab => networkHash_equiv hab) hn,
    xorFold_permUpTo (fun a b : Port => a = b) Port.hash
      (fun _ _ hab => by rw [hab])
      ⟨_, hp, List.forall₂_same.mpr fun _ _ => rfl⟩]

theorem computeHash_equiv {cs ds : List Container} (h : SnapshotEquiv cs ds)
    (nd : ∀ c ∈ cs, NodupKeys c) : computeHash cs = computeHash ds := by
  obtain ⟨l, hp, hf⟩ := h
  unfold computeHash
  have hnd : ∀ c ∈ l, NodupKeys c := fun c hc => nd c (hp.mem_iff.mpr hc)
  refine xorFold_permUpTo (fun c d => ContainerEquiv c d ∧ NodupKeys c)
    Container.hash (fun a b hab => containerHash_equiv hab.1 hab.2) ⟨l, hp, ?_⟩ 0
  clear hp nd
  induction hf with
  | nil => exact List.Forall₂.nil
  | cons h _ ih =>
    exact List.Forall₂.cons ⟨h, hnd _ (List.mem_cons_self _ _)⟩
      (ih fun c hc => hnd c (List.mem_cons_of_mem _ hc))

theorem snapshotEquivW : SnapshotEquiv [cAW, cBW] [cBW, cAW2] :=
  ⟨[cBW, cAW],
    by decide,
    List.Forall₂.cons
      ⟨rfl, rfl, rfl, rfl, List.Perm.refl _,
        ⟨[], List.Perm.refl _, List.Forall₂.nil⟩, List.Perm.refl _⟩
      (List.Forall₂.cons
        ⟨rfl, rfl, rfl, rfl, by decide,
          ⟨[nwW], List.Perm.refl _,
            List.Forall₂.cons ⟨rfl, rfl, rfl, rfl, rfl, by decide⟩
              List.Forall₂.nil⟩,
          List.Perm.refl _⟩
        List.Forall₂.nil)⟩

theorem runSession_error_through (e : GoError) :
    ∀ (goodPulls : List (List Container)) (prev : Option Nat)
      (restPulls : List (Except GoError (List Container))),
      (runSession prev
          (goodPulls.map Except.ok ++ Except.error e :: restPulls)).2.2 =
        some (.wrap refreshFailTag e) := by
  intro goodPulls
  induction goodPulls with
  | nil => intro prev restPulls; rfl
  | cons cs gp ih =>
    intro prev restPulls
    simp only [List.map, List.cons_append, runSession, gather]
    cases hcm : cursorMatches prev (computeHash cs) <;> simp [hcm, ih]

theorem delay_step_cap (q mx : Nat) :
    (if mx < min q mx * 2 then mx else min q mx * 2) = min (q * 2) mx := by
  split_ifs with h <;> omega

theorem delaySeq_get (mn mx : Nat) :
    ∀ (n k j : Nat), k < n →
      (delaySeq mx (min (mn * 2 ^ j) mx) n).get? k =
        some (min (mn * 2 ^ (j + k)) mx) := by
  intro n
  induction n with
  | zero => intro k j hk; exact absurd hk (Nat.not_lt_zero k)
  | succ n ih =>
    intro k j hk
    cases k with
    | zero => simp [delaySeq]
    | succ k =>
      have hstep : (if mx < min (mn * 2 ^ j) mx * 2 then mx
          else min (mn * 2 ^ j) mx * 2) = min (mn * 2 ^ (j + 1)) mx := by
        rw [delay_step_cap, pow_succ, ← mul_assoc]
      simp only [delaySeq, List.get?]
      rw [hstep, show j + (k + 1) = j + 1 + k from by omega]
      exact ih k (j + 1) (by omega)

theorem runWithRetry_delays_rapid (mn mx : Nat) :
    ∀ (scripts : List SessionScript),
      (∀ s ∈ scripts, s.duration < minuteNs ∧ s.ctxErrAfter = false) →
      ∀ (a d : Nat) (prev : Option Nat),
        (runWithRetry ⟨mn, mx, 0⟩ a d prev scripts).delays =
          delaySeq mx d scripts.length := by
  intro scripts
  induction scripts with
  | nil => intro _ a d prev; rfl
  | cons s rest ih =>
    intro hall a d prev
    obtain ⟨hd, hc⟩ := hall s (List.mem_cons_self _ _)
    have hrest := fun t ht => hall t (List.mem_cons_of_mem _ ht)
    simp only [runWithRetry, hc, Nat.not_le.mpr hd, if_false, ite_false,
      Bool.false_eq_true, List.length_cons, delaySeq]
    simp only [Nat.lt_irrefl, false_and, if_false, ite_false]
    rw [ih hrest]

/-! ### Claim theorems -/

/-- C1: on each refresh trigger, gather invokes the callback iff the hash of
the freshly pulled, filtered set differs from the stored Dedup Cursor or the
cursor is still unset; whenever it fires, the cursor has already been set to
the new hash before the callback runs (the trace records the write first);
and a second trigger pulling a structurally identical (possibly permuted)
set invokes the callback zero further times. -/
theorem C1_gather_dedup (prev : Option Nat) (cs ds : List Container)
    (hrel : SnapshotEquiv cs ds) (nd : ∀ c ∈ cs, NodupKeys c) :
    ∃ tr, gather prev (Except.ok cs) = .ok (tr, some (computeHash cs)) ∧
      (invokes tr = 1 ↔ prev ≠ some (computeHash cs)) ∧
      (invokes tr = 0 ↔ prev = some (computeHash cs)) ∧
      (invokes tr = 1 →
        tr = [Ev.setCursor (computeHash cs), Ev.invoke cs]) ∧
      ∃ tr2, gather (some (computeHash cs)) (Except.ok ds) =
        .ok (tr2, some (computeHash cs)) ∧ invokes tr2 = 0 := by
  have hds : computeHash ds = computeHash cs := (computeHash_equiv hrel nd).symm
  have hsecond : ∃ tr2, gather (some (computeHash cs)) (Except.ok ds) =
      .ok (tr2, some (computeHash cs)) ∧ invokes tr2 = 0 := by
    refine ⟨[], ?_, rfl⟩
    simp [gather, cursorMatches, hds]
  cases prev with
  | none =>
    refine ⟨[Ev.setCursor (computeHash cs), Ev.invoke cs],
      ?_, ?_, ?_, fun _ => rfl, hsecond⟩
    · simp [gather, cursorMatches]
    · simp [invokes]
    · simp [invokes]
  | some p =>
    by_cases hp : computeHash cs = p
    · subst hp
      refine ⟨[], ?_, ?_, ?_, ?_, hsecond⟩
      · simp [gather, cursorMatches]
      · simp [invokes]
      · simp [invokes]
      · simp [invokes]
    · refine ⟨[Ev.setCursor (computeHash cs), Ev.invoke cs],
        ?_, ?_, ?_, fun _ => rfl, hsecond⟩
      · simp [gather, cursorMatches, hp]
      · simp [invokes, Ne.symm hp]
      · simp [invokes, Ne.symm hp]

theorem C1_gather_dedup_witness :
    ∃ tr, gather none (Except.ok [cAW, cBW]) =
        .ok (tr, some (computeHash [cAW, cBW])) ∧
      (invokes tr = 1 ↔ none ≠ some (computeHash [cAW, cBW])) ∧
      (invokes tr = 0 ↔ none = some (computeHash [cAW, cBW])) ∧
      (invokes tr = 1 →
        tr = [Ev.setCursor (computeHash [cAW, cBW]), Ev.invoke [cAW, cBW]]) ∧
      ∃ tr2, gather (some (computeHash [cAW, cBW])) (Except.ok [cBW, cAW2]) =
        .ok (tr2, some (computeHash [cAW, cBW])) ∧ invokes tr2 = 0 :=
  C1_gather_dedup none [cAW, cBW] [cBW, cAW2] snapshotEquivW (by decide)

set_option maxRecDepth 100000 in
/-- C2: the max-debounce timer is armed exactly on the Idle-to-Pending
arrival (to now + maxDebounceTime) and is left untouched by further arrivals
while Pending (which also stay Pending without refreshing); on its firing
the loop refreshes, cancels the debounce timer and returns to Idle; and in
the storm scenario — arrivals every debounce/10 = 10ms lasting past
maxDebounceTime = 5s under the default timing — the first refresh fires
exactly at the max-debounce deadline 5000ms, after which the debounce timer
is stopped and the gate is Idle. -/
theorem C2_max_debounce_once (cfg : GateConfig) (now : Nat) (s : GateState) :
    (s.waiting = true →
      (gateStep cfg now s .arrival).1.maxDebounceC = s.maxDebounceC ∧
      (gateStep cfg now s .arrival).1.waiting = true ∧
      (gateStep cfg now s .arrival).2 = false) ∧
    (s.waiting = false →
      (gateStep cfg now s .arrival).1.maxDebounceC =
        some (now + cfg.maxDebounceTime) ∧
      (gateStep cfg now s .arrival).1.waiting = true) ∧
    gateStep cfg now s .maxDebounceFire =
      (⟨false, none, none, now + cfg.maxIdleTime⟩, true) ∧
    simRun defaultGateConfig 600 (gateInit defaultGateConfig 0) stormArrivals =
      some (5000, ⟨false, none, none, 35000⟩) := by
  refine ⟨fun hw => ?_, fun hw => ?_, rfl, by decide⟩
  · simp [gateStep, hw]
  · simp [gateStep, hw]

theorem C2_max_debounce_once_witness :
    (gateStep defaultGateConfig 7
        ⟨true, some 107, some 5000, 30007⟩ .arrival).1.maxDebounceC =
      (⟨true, some 107, some 5000, 30007⟩ : GateState).maxDebounceC :=
  ((C2_max_debounce_once defaultGateConfig 7
      ⟨true, some 107, some 5000, 30007⟩).1 rfl).1

/-- C4 fails as stated: the Dedup Cursor persists across reconnects, so the
session start after a reconnect does not invoke the callback unconditionally
— here the reconnected session's initial pull succeeds with the same set as
before the disconnect, and its trace contains zero invocations. -/
theorem C4_counterexample :
    (run (some ⟨1, 8, 1⟩) [sOkThenDrop, sOkThenDrop]).traces.map invokes =
      [1, 0] ∧
    sOkThenDrop.pulls = [Except.ok [cSolo]] :=
  ⟨by decide, rfl⟩

/-- C4 (amended): every session start performs the initial gather on the
pulled set; on a successful pull the callback is invoked iff the Dedup
Cursor is unset or differs from the new hash. The cursor is unset at the
first session of a Run — so the first session's initial callback is
unconditional on success — whereas a reconnected session inherits the cursor
from before the disconnect and invokes the callback only when the hash
changed. -/
theorem C4_session_start_amended :
    (∀ cs : List Container,
      gather none (Except.ok cs) =
        .ok ([Ev.setCursor (computeHash cs), Ev.invoke cs],
          some (computeHash cs))) ∧
    (∀ (prev : Option Nat) (cs : List Container),
      ∃ tr cur, gather prev (Except.ok cs) = .ok (tr, cur) ∧
        (invokes tr = 1 ↔ prev ≠ some (computeHash cs)) ∧
        (invokes tr = 0 ↔ prev = some (computeHash cs))) ∧
    (∀ (cfg : ReconnectConfig) (scripts : List SessionScript),
      run (some cfg) scripts = runWithRetry cfg 0 cfg.MinDelay none scripts) := by
  refine ⟨fun cs => by simp [gather, cursorMatches], fun prev cs => ?_,
    fun _ _ => rfl⟩
  cases prev with
  | none =>
    exact ⟨[Ev.setCursor (computeHash cs), Ev.invoke cs], some (computeHash cs),
      by simp [gather, cursorMatches], by simp [invokes], by simp [invokes]⟩
  | some p =>
    by_cases hp : computeHash cs = p
    · subst hp
      exact ⟨[], some (computeHash cs), by simp [gather, cursorMatches],
        by simp [invokes], by simp [invokes]⟩
    · exact ⟨[Ev.setCursor (computeHash cs), Ev.invoke cs], some (computeHash cs),
        by simp [gather, cursorMatches, hp], by simp [invokes, Ne.symm hp],
        by simp [invokes, Ne.symm hp]⟩

/-- C5: for every pair of container collections that agree up to a
permutation of the collection, of each container's label map entries, of
each container's network and port collections, and of each network's alias
list, `computeHash` yields the same digest (label keys are unique, as in
every Go map). -/
theorem C5_hash_reordering_invariant (cs ds : List Container)
    (h : SnapshotEquiv cs ds) (nd : ∀ c ∈ cs, NodupKeys c) :
    computeHash cs = computeHash ds :=
  computeHash_equiv h nd

theorem C5_hash_reordering_invariant_witness :
    computeHash [cAW, cBW] = computeHash [cBW, cAW2] :=
  C5_hash_reordering_invariant [cAW, cBW] [cBW, cAW2] snapshotEquivW (by decide)

/-- C8: a container whose label map, network collection and port collection
are nil hashes identically to the otherwise identical container where each
is empty, and a network with nil aliases hashes identically to the same
network with an empty alias list. -/
theorem C8_nil_empty_hash_equal (i n im st nm nid ip ip6 gw : Str) :
    Container.hash ⟨i, n, im, st, none, none, none⟩ =
      Container.hash ⟨i, n, im, st, some [], some [], some []⟩ ∧
    Network.hash ⟨nm, nid, ip, ip6, gw, none⟩ =
      Network.hash ⟨nm, nid, ip, ip6, gw, some []⟩ :=
  ⟨rfl, rfl⟩

/-- C10: appending two copies of any container to any collection leaves the
collection digest unchanged, and a collection of exactly two identical
containers digests to 0, the digest of the empty collection — the XOR-fold
cannot distinguish these structurally different collections. -/
theorem C10_duplicate_pair_cancels (L : List Container) (c : Container) :
    computeHash (L ++ [c, c]) = computeHash L ∧
    computeHash [c, c] = 0 ∧ computeHash [] = 0 := by
  have key : ∀ x : Nat, x ^^^ c.hash ^^^ c.hash = x := fun x => by
    rw [Nat.xor_assoc, Nat.xor_self, Nat.xor_zero]
  refine ⟨?_, ?_, rfl⟩
  · unfold computeHash
    rw [List.foldl_append]
    exact key _
  · exact key 0

/-- C3 fails as stated: with the empty string as value, `LabelEquals`
returns true on a container whose label map does not contain the key at all
(Go map indexing yields the zero value for missing keys). -/
theorem C3_counterexample :
    LabelEquals [107] [] cBW = true ∧
    ((goList cBW.Labels).find? fun p => decide (p.1 = [107])) = none := by
  decide

/-- C3 (amended): `LabelEquals(key, value)` is true iff the label map
contains the pair `(key, value)` exactly (no wildcarding, byte-for-byte
comparison), or the key is absent and `value` is the empty string; in
particular it returns false whenever the map does not contain `key` and
`value` is non-empty. -/
theorem C3_labelEquals_amended (key value : Str) (c : Container)
    (nd : NodupKeys c) :
    LabelEquals key value c = true ↔
      ((key, value) ∈ goList c.Labels ∨
        ((∀ v, (key, v) ∉ goList c.Labels) ∧ value = [])) := by
  unfold LabelEquals lookupStr
  rw [decide_eq_true_eq]
  cases hf : (goList c.Labels).find? fun p => decide (p.1 = key) with
  | none =>
    rw [List.find?_eq_none] at hf
    constructor
    · intro hv
      refine Or.inr ⟨fun v hv2 => ?_, hv.symm⟩
      exact absurd (by simp) (hf (key, v) hv2)
    · rintro (hmem | ⟨_, hval⟩)
      · exact absurd (by simp) (hf (key, value) hmem)
      · exact hval.symm
  | some p =>
    have hp1 : p.1 = key := by simpa using List.find?_some hf
    have hpmem : p ∈ goList c.Labels := List.mem_of_find?_eq_some hf
    constructor
    · intro hv
      refine Or.inl ?_
      have : p = (key, value) := by
        cases p
        simp_all
      exact this ▸ hpmem
    · rintro (hmem | ⟨habs, _⟩)
      · have : p = (key, value) :=
          List.inj_on_of_nodup_map nd hpmem hmem (by simp [hp1])
        rw [this]
      · obtain ⟨pk, pv⟩ := p
        exact absurd (hp1 ▸ hpmem) (habs pv)

theorem C3_labelEquals_amended_witness :
    LabelEquals [1] [2] cOneLabel = true :=
  (C3_labelEquals_amended [1] [2] cOneLabel (by decide)).mpr
    (Or.inl (by decide))

/-- C9: a failure of the listing call fails the whole pull with that error;
a per-identity inspection failure merely skips that identity — the pull
still succeeds, returning exactly the successfully inspected identities that
pass the filter, and dropping a failing identity from the listing does not
change the result. -/
theorem C9_partial_inspect_failure :
    (∀ (f : Option Filter) (inspect : Str → Except GoError Container)
        (e : GoError), gatherContainers f (.error e) inspect = .error e) ∧
    (∀ (f : Option Filter) (inspect : Str → Except GoError Container)
        (ids : List Str),
      gatherContainers f (.ok ids) inspect =
        .ok (ids.filterMap fun i =>
          match inspect i with
          | .error _ => none
          | .ok c =>
            if (match f with | none => true | some g => g c) then some c
            else none)) ∧
    (∀ (f : Option Filter) (inspect : Str → Except GoError Container)
        (ids₁ ids₂ : List Str) (bad : Str) (e : GoError),
      inspect bad = .error e →
      gatherContainers f (.ok (ids₁ ++ bad :: ids₂)) inspect =
        gatherContainers f (.ok (ids₁ ++ ids₂)) inspect) := by
  have loop_eq : ∀ (f : Option Filter) (inspect : Str → Except GoError Container)
      (ids : List Str),
      gatherLoop f inspect ids = ids.filterMap fun i =>
        match inspect i with
        | .error _ => none
        | .ok c =>
          if (match f with | none => true | some g => g c) then some c
          else none := by
    intro f inspect ids
    induction ids with
    | nil => rfl
    | cons i rest ih =>
      rw [List.filterMap_cons]
      cases hi : inspect i with
      | error e => simp only [gatherLoop, hi, ih]
      | ok c =>
        cases f with
        | none => simp [gatherLoop, hi, ih]
        | some g => cases hgc : g c <;> simp [gatherLoop, hi, ih, hgc]
  refine ⟨fun _ _ _ => rfl, fun f inspect ids => ?_, fun f inspect ids₁ ids₂ bad e hbad => ?_⟩
  · simp only [gatherContainers]
    rw [loop_eq]
  · simp only [gatherContainers]
    rw [loop_eq, loop_eq, List.filterMap_append, List.filterMap_append,
      List.filterMap_cons, hbad]

/-- C6: with auto-reconnect disabled, a state-source error during any pull of
the session makes Run return exactly that error wrapped in the
failed-to-refresh message; with auto-reconnect enabled and maxRetries = 2,
consecutive rapid failures produce exactly 3 session attempts — the result
consumes precisely three scripts whatever follows them — and Run returns the
third (most recent) attempt's error. -/
theorem C6_retry_exhaustion :
    (∀ (goodPulls : List (List Container)) (e : GoError)
        (restPulls : List (Except GoError (List Container)))
        (se : Option GoError) (d : Nat) (ca : Bool),
      (run none
          [⟨goodPulls.map Except.ok ++ Except.error e :: restPulls, se, d, ca⟩]).outcome =
        some (some (.wrap refreshFailTag e))) ∧
    (∀ (mn mx : Nat) (s1 s2 s3 : SessionScript) (rest : List SessionScript),
      s1.duration < minuteNs → s2.duration < minuteNs → s3.duration < minuteNs →
      s1.ctxErrAfter = false → s2.ctxErrAfter = false → s3.ctxErrAfter = false →
      ∃ g1 g2 g3 : List Ev × Option Nat × Option GoError,
        runOnceModel none s1 = g1 ∧ runOnceModel g1.2.1 s2 = g2 ∧
        runOnceModel g2.2.1 s3 = g3 ∧
        run (some ⟨mn, mx, 2⟩) (s1 :: s2 :: s3 :: rest) =
          ⟨[g1.1, g2.1, g3.1], [mn, if mx < mn * 2 then mx else mn * 2],
            some g3.2.2, g3.2.1⟩) := by
  constructor
  · intro goodPulls e restPulls se d ca
    simp [run, runOnceModel, runSession_error_through e goodPulls none restPulls]
  · intro mn mx s1 s2 s3 rest h1 h2 h3 c1 c2 c3
    refine ⟨runOnceModel none s1, runOnceModel (runOnceModel none s1).2.1 s2,
      runOnceModel (runOnceModel (runOnceModel none s1).2.1 s2).2.1 s3,
      rfl, rfl, rfl, ?_⟩
    show runWithRetry ⟨mn, mx, 2⟩ 0 mn none (s1 :: s2 :: s3 :: rest) = _
    simp only [runWithRetry, c1, c2, c3, Nat.not_le.mpr h1, Nat.not_le.mpr h2,
      Nat.not_le.mpr h3, if_false, ite_false, Bool.false_eq_true]
    norm_num

theorem C6_retry_exhaustion_witness :
    ∃ g1 g2 g3 : List Ev × Option Nat × Option GoError,
      runOnceModel none sE = g1 ∧ runOnceModel g1.2.1 sE = g2 ∧
      runOnceModel g2.2.1 sE = g3 ∧
      run (some ⟨1, 8, 2⟩) (sE :: sE :: sE :: []) =
        ⟨[g1.1, g2.1, g3.1], [1, if 8 < 1 * 2 then 8 else 1 * 2],
          some g3.2.2, g3.2.1⟩ :=
  C6_retry_exhaustion.2 1 8 sE sE sE [] (by decide) (by decide) (by decide)
    rfl rfl rfl

/-- C7 fails as stated: when minDelay exceeds maxDelay, the delay before the
first retry is minDelay itself, not min(minDelay · 2^0, maxDelay) — with
min = 2 and max = 1 the first sleep is 2 while the formula says 1. -/
theorem C7_counterexample :
    (run (some ⟨2, 1, 1⟩) [sE, sE]).delays = [2] ∧
    min (2 * 2 ^ 0) 1 = 1 ∧ (2 : Nat) ≠ 1 := by decide

/-- C7 (amended): provided minDelay ≤ maxDelay, the delay slept before the
k-th retry across consecutive rapid failures is min(minDelay · 2^(k-1),
maxDelay); and whenever a session attempt survives at least the one-minute
stability window before failing, both the attempt counter and the delay
reset to their minimums: the loop sleeps exactly minDelay and continues as
attempt 1, whatever the incoming attempt count and delay were. -/
theorem C7_backoff_amended :
    (∀ (mn mx : Nat) (scripts : List SessionScript), mn ≤ mx →
      (∀ s ∈ scripts, s.duration < minuteNs ∧ s.ctxErrAfter = false) →
      ∀ k, k < scripts.length →
        (run (some ⟨mn, mx, 0⟩) scripts).delays.get? k =
          some (min (mn * 2 ^ k) mx)) ∧
    (∀ (cfg : ReconnectConfig) (a d : Nat) (prev : Option Nat)
        (s : SessionScript) (rest : List SessionScript),
      minuteNs ≤ s.duration → s.ctxErrAfter = false →
      runWithRetry cfg a d prev (s :: rest) =
        (let g := runOnceModel prev s
         let d3 := if cfg.MaxDelay < cfg.MinDelay * 2 then cfg.MaxDelay
           else cfg.MinDelay * 2
         let r := runWithRetry cfg 1 d3 g.2.1 rest
         ⟨g.1 :: r.traces, cfg.MinDelay :: r.delays, r.outcome, r.cursor⟩)) := by
  constructor
  · intro mn mx scripts hle hall k hk
    show (runWithRetry ⟨mn, mx, 0⟩ 0 mn none scripts).delays.get? k = _
    rw [runWithRetry_delays_rapid mn mx scripts hall 0 mn none]
    have hmn : min (mn * 2 ^ 0) mx = mn := by
      simpa using Nat.min_eq_left hle
    have h2 := delaySeq_get mn mx scripts.length k 0 hk
    rw [hmn] at h2
    simpa using h2
  · intro cfg a d prev s rest hd hc
    have hnr : ¬(0 < cfg.MaxRetries ∧ cfg.MaxRetries < 0 + 1) := by omega
    simp only [runWithRetry, hc, hd, if_true, ite_true, if_false, ite_false,
      Bool.false_eq_true, hnr]

theorem C7_backoff_amended_witness :
    (run (some ⟨1000000000, 8000000000, 0⟩)
        [sE, sE, sE, sE, sE]).delays.get? 4 =
      some (min (1000000000 * 2 ^ 4) 8000000000) :=
  C7_backoff_amended.1 1000000000 8000000000 [sE, sE, sE, sE, sE]
    (by omega) (by decide) 4 (by decide)

theorem C9_partial_inspect_failure_witness :
    gatherContainers none
      (.ok [[1], [2], [3]])
      (fun i => if i = [2] then .error (.base 7) else .ok cSolo) =
    gatherContainers none
      (.ok [[1], [3]])
      (fun i => if i = [2] then .error (.base 7) else .ok cSolo) :=
  C9_partial_inspect_failure.2.2 none
    (fun i => if i = [2] then .error (.base 7) else .ok cSolo)
    [[1]] [[3]] [2] (.base 7) rfl

end Containuum
